import Mathlib

/-!
# Verification of the datalad-tabby sources

A shallow embedding of the `datalad_tabby` repository:

* `datalad_tabby/io/load.py` — the tabby record loader (`load_tabby`,
  `_load_tabby_single`, `_load_tabby_many`, `_resolve_value`, `_manyrow2obj`),
* `datalad_tabby/commands/model.py` — the domain model dataclasses,
* `datalad_tabby/commands/tabby-serialize.py` — folding traversal records into the
  model and writing the `file.tsv` / `subdatasets.tsv` tables,
* `datalad_tabby/commands/tabby-deserialize.py` — the file-table reading side.

Python dictionaries are embedded as association lists that preserve insertion
order (`setEntry` re-assigns in place, otherwise appends, exactly like a Python
`dict`).  The helpers of `datalad_tabby/io/load_utils.py` are not part of the
verified sources; each definition that stands in for one of them is marked
`Modelled from the spec:` and follows the contracts of spec §4.2.

The loader recursion of `load.py` is unbounded in the source (recursive sheet
inclusions).  The embedding indexes it by a fuel argument counting the
inclusion depth: `none` means "no result at this depth".  A real execution returns `r` iff some
fuel yields `some r`, and it diverges iff every fuel yields `none`.
-/

/-- A loaded tabby value: a literal cell string, an imported single record
(a JSON object), or an imported many record (a JSON array). -/
inductive TVal where
  | s (v : String)
  | o (fields : List (String × TVal))
  | a (items : List TVal)

/-- A loaded record: a Python `dict` as an insertion-ordered association list. -/
abbrev Obj := List (String × TVal)

/-- Python `dict` lookup on an association list. -/
def alGet {β : Type} (k : String) : List (String × β) → Option β
  | [] => none
  | (k1, v) :: rest => if k1 = k then some v else alGet k rest

/-- Python `dict` assignment `m[k] = v`: overwrite in place if the key exists
(keeping its insertion position), otherwise append at the end. -/
def setEntry {β : Type} (m : List (String × β)) (k : String) (v : β) : List (String × β) :=
  match m with
  | [] => [(k, v)]
  | (k1, v1) :: rest => if k1 = k then (k, v) :: rest else (k1, v1) :: setEntry rest k v

/-- Python `dict.update(other)`: assign every entry of `other` in order. -/
def dictUpdate {β : Type} (m other : List (String × β)) : List (String × β) :=
  other.foldl (fun acc kv => setEntry acc kv.1 kv.2) m

/-- Apply `f` to the value stored at key `k` (no-op when the key is absent). -/
def modifyEntry {β : Type} (m : List (String × β)) (k : String) (f : β → β) :
    List (String × β) :=
  m.map (fun kv => if kv.1 = k then (kv.1, f kv.2) else kv)

/-- Python `s.startswith(p)` on character lists. -/
def pyStartswithAux : List Char → List Char → Bool
  | [], _ => true
  | _ :: _, [] => false
  | p :: ps, c :: cs => p = c && pyStartswithAux ps cs

/-- Python `s.startswith(p)`. -/
def pyStartswith (s p : String) : Bool :=
  pyStartswithAux p.toList s.toList

/-- Python `s[n:]` (drop the first `n` characters). -/
def pySlice (s : String) (n : Nat) : String :=
  String.mk (s.toList.drop n)

/-- Python falsiness of a loaded value (`if v:`): the empty string, the empty
dict and the empty list are falsy. -/
def TVal.isFalsy : TVal → Bool
  | .s v => v == ""
  | .o fields => fields.isEmpty
  | .a items => items.isEmpty

/-- Modelled from the spec: `_get_index_after_last_nonempty` of the missing
`load_utils.py` — the index one past the last non-empty element; a fully empty
sequence yields 0 (spec §4.2, §8.1). String-cell variant. -/
def getIndexAfterLastNonempty (l : List String) : Nat :=
  l.length - (l.reverse.takeWhile (fun v => v == "")).length

/-- Modelled from the spec: `_get_index_after_last_nonempty` applied to already
resolved values (as in `_manyrow2obj`), with Python falsiness for emptiness. -/
def getIndexAfterLastNonemptyT (l : List TVal) : Nat :=
  l.length - (l.reverse.takeWhile TVal.isFalsy).length

/-- Modelled from the spec: `_compact_obj` of the missing `load_utils.py` —
replace every value that is a list with exactly one item by that item
(spec §4.2, §8.2). -/
def compactObj (obj : Obj) : Obj :=
  obj.map (fun kv =>
    match kv.2 with
    | .a [x] => (kv.1, x)
    | v => (kv.1, v))

/-- Modelled from the spec: `_get_corresponding_sheet_fpath` of the missing
`load_utils.py` — resolve an imported sheet name to a sibling file of the
referring sheet (spec §4.2); the exact naming convention is represented as
`<directory of src>/<name>.tsv`. -/
def getCorrespondingSheetFpath (srcSheetFpath name : String) : String :=
  String.intercalate "/" ((srcSheetFpath.splitOn "/").dropLast ++ [name ++ ".tsv"])

/-- Modelled from the spec: `_build_import_trace` of the missing
`load_utils.py` — append the newly resolved sheet path to the chain of
in-progress imports (spec §4.2).  Nothing in `load.py` ever reads the chain:
there is no cycle detection. -/
def buildImportTrace (src : String) (trace : List String) : List String :=
  trace ++ [src]

/-- The loader's environment: the file system (a sheet path maps to its rows of
cells, `none` when the file does not exist) together with the context and
override discovery of the missing `load_utils.py`, modelled from the spec as
opaque per-sheet functions (spec §4.2). -/
structure TabbyEnv where
  fs : String → Option (List (List String))
  getContext : String → Option Obj
  buildOverrides : String → Obj → Obj

/-- Modelled from the spec: `_assigned_context` of the missing `load_utils.py`
— merge a discovered context into the record's `@context` entry without
discarding context already present (spec §4.2). -/
def assignedContext (obj : Obj) (ctx : Obj) : Obj :=
  match alGet "@context" obj with
  | none => obj ++ [("@context", TVal.o ctx)]
  | some (TVal.o oldCtx) => setEntry obj "@context" (TVal.o (dictUpdate ctx oldCtx))
  | some old => setEntry obj "@context" old

/-- The cell-value resolution loop of `_load_tabby_single` (load.py lines
84–93), parametrised by the resolution function `rv` (the sheet context is
already applied): resolve every value cell, failing if any cell fails. -/
def resolveVals (rv : String → Option TVal) : List String → Option (List TVal)
  | [] => some []
  | v :: vs =>
    match rv v, resolveVals rv vs with
    | some t, some ts => some (t :: ts)
    | _, _ => none

/-- The cell-value resolution of `_manyrow2obj` (load.py lines 201–212):
like `resolveVals` but an empty cell is kept as the empty string to maintain
field-name association (`_resolve_value(v, ...) if v else v`). -/
def resolveValsKeepEmpty (rv : String → Option TVal) : List String → Option (List TVal)
  | [] => some []
  | v :: vs =>
    match (if v == "" then some (TVal.s v) else rv v), resolveValsKeepEmpty rv vs with
    | some t, some ts => some (t :: ts)
    | _, _ => none

/-- The row loop of `_load_tabby_single` (load.py lines 69–98): skip empty
rows, rows with an empty first field and comment rows; trim trailing empty
value cells; skip rows left without values; resolve the values and assign
`obj[key] = val` (a later row for the same key overwrites). -/
def singleRows (rv : String → Option TVal) : List (List String) → Obj → Option Obj
  | [], obj => some obj
  | row :: rest, obj =>
    if row.isEmpty || (row.headD "" == "") || pyStartswith (row.headD "") "#" then
      singleRows rv rest obj
    else
      let key := row.headD ""
      let val0 := row.drop 1
      let val := val0.take (getIndexAfterLastNonempty val0)
      if val.isEmpty then
        singleRows rv rest obj
      else
        match resolveVals rv val with
        | none => none
        | some tvals => singleRows rv rest (setEntry obj key (TVal.a tvals))

/-- `_load_tabby_single` (load.py lines 58–114), parametrised by the
cell-resolution function `rv` (standing for `_resolve_value`): read the rows,
apply the overrides, compact, and attach a context when `jsonld` is set. -/
def load_tabby_single_rv (env : TabbyEnv)
    (rv : String → String → Bool → Bool → List String → Option TVal)
    (src : String) (jsonld recursive : Bool) (trace : List String) : Option Obj :=
  match env.fs src with
  | none => none
  | some rows =>
    match singleRows (fun v => rv v src jsonld recursive trace) rows [] with
    | none => none
    | some obj =>
      let obj := dictUpdate obj (env.buildOverrides src obj)
      let obj := compactObj obj
      if !jsonld then
        some obj
      else
        match env.getContext src with
        | some ctx => some (assignedContext obj ctx)
        | none => some obj

/-- The field/value merge loop of `_manyrow2obj` (load.py lines 222–233):
walk the field names with their index; skip indices beyond the row's values and
falsy values; otherwise append the value to the (possibly repeated) field's
accumulated list. -/
def mergeFieldsAux (vals : List TVal) : List String → Nat → Obj → Obj
  | [], _, obj => obj
  | k :: ks, i, obj =>
    match vals.get? i with
    | none => mergeFieldsAux vals ks (i + 1) obj
    | some v =>
      if v.isFalsy then
        mergeFieldsAux vals ks (i + 1) obj
      else
        let kvals :=
          match alGet k obj with
          | some (TVal.a l) => l
          | some x => [x]  -- unreachable: this loop only ever stores `TVal.a` values
          | none => []
        mergeFieldsAux vals ks (i + 1) (setEntry obj k (TVal.a (kvals ++ [v])))

/-- `_manyrow2obj` (load.py lines 190–238), parametrised by the
cell-resolution function `rv`: resolve the cells (keeping empty cells), merge
excess cells into the value of the last named field as a trailing-trimmed list
(`vals[last_key_idx] = lc_vals`), build the object, apply the overrides.
When `fieldnames` is empty the source's `last_key_idx` is `-1` (a Python
negative index); the `Nat` index `0` used here leads to the same result, since
the field loop then reads no value at all. -/
def manyrow2obj (env : TabbyEnv)
    (rv : String → String → Bool → Bool → List String → Option TVal)
    (src : String) (row : List String) (jsonld : Bool) (fieldnames : List String)
    (recursive : Bool) (trace : List String) : Option Obj :=
  match resolveValsKeepEmpty (fun v => rv v src jsonld recursive trace) row with
  | none => none
  | some vals0 =>
    let vals :=
      if vals0.length > fieldnames.length then
        let lastKeyIdx := fieldnames.length - 1
        let lcVals0 := vals0.drop lastKeyIdx
        let lcVals := lcVals0.take (getIndexAfterLastNonemptyT lcVals0)
        vals0.set lastKeyIdx (TVal.a lcVals)
      else vals0
    let obj := mergeFieldsAux vals fieldnames 0 []
    some (dictUpdate obj (env.buildOverrides src obj))

/-- The cell of a CSV row, as produced by Python's `csv.reader`, is always a
string and never `None`; the source's `all(v is None for v in row)` emptiness
test of `_load_tabby_many` (load.py line 140) therefore never holds for a cell. -/
def cellIsNone (_ : String) : Bool := false

/-- The row loop of `_load_tabby_many` (load.py lines 130–157): skip empty
rows, comment rows and all-`None` rows; the first retained row defines the
field names (trimmed of trailing empty cells); every further row becomes one
record, context-assigned and compacted. -/
def manyRows (env : TabbyEnv)
    (rv : String → String → Bool → Bool → List String → Option TVal)
    (src : String) (jsonld recursive : Bool) (trace : List String)
    (ctx : Option Obj) : List (List String) → Option (List String) → Option (List Obj)
  | [], _ => some []
  | row :: rest, fieldnames =>
    if row.isEmpty || pyStartswith (row.headD "") "#" || row.all cellIsNone then
      manyRows env rv src jsonld recursive trace ctx rest fieldnames
    else
      match fieldnames with
      | none =>
        manyRows env rv src jsonld recursive trace ctx rest
          (some (row.take (getIndexAfterLastNonempty row)))
      | some fns =>
        match manyrow2obj env rv src row jsonld fns recursive trace with
        | none => none
        | some obj =>
          let obj :=
            match ctx with
            | some c => assignedContext obj c
            | none => obj
          match manyRows env rv src jsonld recursive trace ctx rest (some fns) with
          | none => none
          | some arr => some (compactObj obj :: arr)

/-- `_load_tabby_many` (load.py lines 117–157), parametrised by the
cell-resolution function `rv`: the context is discovered once per sheet
(independently of the `jsonld` flag, as in the source) and the rows are folded
by `manyRows`. -/
def load_tabby_many_rv (env : TabbyEnv)
    (rv : String → String → Bool → Bool → List String → Option TVal)
    (src : String) (jsonld recursive : Bool) (trace : List String) :
    Option (List Obj) :=
  let ctx := env.getContext src
  match env.fs src with
  | none => none
  | some rows => manyRows env rv src jsonld recursive trace ctx rows none

/-- `_resolve_value` (load.py lines 160–187), parametrised by the two loaders:
a non-recursive load or a value without the `@tabby-` marker is returned
unchanged; `@tabby-single-<name>` triggers a single-mode load and
`@tabby-many-<name>` a many-mode load of the resolved sibling sheet; any other
`@tabby-` value is returned unchanged. -/
def resolve_value_with
    (loadS : String → Bool → Bool → List String → Option Obj)
    (loadM : String → Bool → Bool → List String → Option (List Obj))
    (v srcSheetFpath : String) (jsonld recursive : Bool) (trace : List String) :
    Option TVal :=
  if !recursive || !pyStartswith v "@tabby-" then
    some (TVal.s v)
  else if pyStartswith v "@tabby-single-" then
    let src := getCorrespondingSheetFpath srcSheetFpath (pySlice v 14)
    let trace := buildImportTrace src trace
    (loadS src jsonld recursive trace).map TVal.o
  else if pyStartswith v "@tabby-many-" then
    let src := getCorrespondingSheetFpath srcSheetFpath (pySlice v 12)
    let trace := buildImportTrace src trace
    (loadM src jsonld recursive trace).map (fun objs => TVal.a (objs.map TVal.o))
  else
    some (TVal.s v)

/-- The fuel-indexed `_resolve_value`: at fuel `f + 1` an import is answered
by the loaders running with the resolution function of fuel `f`; at fuel `0`
an import yields no result.  Non-import values never consume fuel. -/
def resolve_value (env : TabbyEnv) :
    Nat → String → String → Bool → Bool → List String → Option TVal
  | 0 => resolve_value_with (fun _ _ _ _ => none) (fun _ _ _ _ => none)
  | fuel + 1 =>
    resolve_value_with
      (fun src jsonld recursive trace =>
        load_tabby_single_rv env (resolve_value env fuel) src jsonld recursive trace)
      (fun src jsonld recursive trace =>
        load_tabby_many_rv env (resolve_value env fuel) src jsonld recursive trace)

/-- `_load_tabby_single` at import depth `fuel`, started with the empty import
trace, as done by `load_tabby` (load.py lines 50–55). -/
def load_tabby_single (env : TabbyEnv) (fuel : Nat) (src : String)
    (jsonld recursive : Bool) : Option Obj :=
  load_tabby_single_rv env (resolve_value env fuel) src jsonld recursive []

/-- `_load_tabby_many` at import depth `fuel`, started with the empty import
trace. -/
def load_tabby_many (env : TabbyEnv) (fuel : Nat) (src : String)
    (jsonld recursive : Bool) : Option (List Obj) :=
  load_tabby_many_rv env (resolve_value env fuel) src jsonld recursive []

/-- `load_tabby` (load.py lines 23–55): dispatch on the `single` flag. -/
def load_tabby (env : TabbyEnv) (fuel : Nat) (src : String)
    (single jsonld recursive : Bool) : Option (Obj ⊕ List Obj) :=
  if single then (load_tabby_single env fuel src jsonld recursive).map Sum.inl
  else (load_tabby_many env fuel src jsonld recursive).map Sum.inr

/-! ## Association-list lemmas -/

theorem alGet_setEntry_self {β : Type} (m : List (String × β)) (k : String) (v : β) :
    alGet k (setEntry m k v) = some v := by
  induction m with
  | nil => simp [setEntry, alGet]
  | cons kv rest ih =>
    obtain ⟨k1, v1⟩ := kv
    by_cases h : k1 = k
    · simp [setEntry, h, alGet]
    · simp [setEntry, h, alGet, ih]

theorem alGet_setEntry_ne {β : Type} (m : List (String × β)) (k k1 : String) (v : β)
    (h : k1 ≠ k) : alGet k (setEntry m k1 v) = alGet k m := by
  induction m with
  | nil => simp [setEntry, alGet, h]
  | cons kv rest ih =>
    obtain ⟨k2, v2⟩ := kv
    by_cases h2 : k2 = k1
    · subst h2
      simp [setEntry, alGet, h]
    · by_cases h3 : k2 = k
      · simp [setEntry, alGet, h2, h3, Ne.symm h]
      · simp [setEntry, alGet, h2, h3, ih]

theorem mergeFieldsAux_alGet_not_mem (vals : List TVal) (ks : List String) (k : String)
    (h : k ∉ ks) : ∀ (i : Nat) (obj : Obj),
    alGet k (mergeFieldsAux vals ks i obj) = alGet k obj := by
  induction ks with
  | nil => intro i obj; rfl
  | cons k1 ks ih =>
    intro i obj
    have hk1 : k1 ≠ k := fun hc => h (hc ▸ List.mem_cons_self k1 ks)
    have hks : k ∉ ks := fun hc => h (List.mem_cons_of_mem k1 hc)
    show alGet k
      (match vals.get? i with
       | none => mergeFieldsAux vals ks (i + 1) obj
       | some v =>
         if v.isFalsy then mergeFieldsAux vals ks (i + 1) obj
         else
           let kvals :=
             match alGet k1 obj with
             | some (TVal.a l) => l
             | some x => [x]
             | none => []
           mergeFieldsAux vals ks (i + 1) (setEntry obj k1 (TVal.a (kvals ++ [v])))) = alGet k obj
    cases hv : vals.get? i with
    | none => simp [ih hks]
    | some v =>
      by_cases hf : v.isFalsy
      · simp [hf, ih hks]
      · simp [hf, ih hks, alGet_setEntry_ne _ _ _ _ hk1]

theorem mergeFieldsAux_append (vals : List TVal) (as bs : List String) :
    ∀ (i : Nat) (obj : Obj),
    mergeFieldsAux vals (as ++ bs) i obj =
      mergeFieldsAux vals bs (i + as.length) (mergeFieldsAux vals as i obj) := by
  induction as with
  | nil => intro i obj; simp [mergeFieldsAux]
  | cons a as ih =>
    intro i obj
    show (match vals.get? i with
       | none => mergeFieldsAux vals (as ++ bs) (i + 1) obj
       | some v =>
         if v.isFalsy then mergeFieldsAux vals (as ++ bs) (i + 1) obj
         else
           let kvals :=
             match alGet a obj with
             | some (TVal.a l) => l
             | some x => [x]
             | none => []
           mergeFieldsAux vals (as ++ bs) (i + 1) (setEntry obj a (TVal.a (kvals ++ [v])))) = _
    have harith : i + 1 + as.length = i + (a :: as).length := by
      simp [List.length_cons]; omega
    cases hv : vals.get? i with
    | none =>
      simp only [ih, harith]
      show _ = mergeFieldsAux vals bs (i + (a :: as).length)
        (match vals.get? i with
         | none => mergeFieldsAux vals as (i + 1) obj
         | some v => _)
      rw [hv]
    | some v =>
      by_cases hf : v.isFalsy
      · simp only [hf, if_true, ih, harith]
        show _ = mergeFieldsAux vals bs (i + (a :: as).length)
          (match vals.get? i with
           | none => mergeFieldsAux vals as (i + 1) obj
           | some v => if v.isFalsy then mergeFieldsAux vals as (i + 1) obj else _)
        rw [hv]
        simp [hf]
      · simp only [hf, if_false, ih, harith]
        show _ = mergeFieldsAux vals bs (i + (a :: as).length)
          (match vals.get? i with
           | none => mergeFieldsAux vals as (i + 1) obj
           | some v => if v.isFalsy then mergeFieldsAux vals as (i + 1) obj
             else
               let kvals :=
                 match alGet a obj with
                 | some (TVal.a l) => l
                 | some x => [x]
                 | none => []
               mergeFieldsAux vals as (i + 1) (setEntry obj a (TVal.a (kvals ++ [v]))))
        rw [hv]
        simp [hf]

/-! ## Loader step lemmas -/

theorem singleRows_cons (rv : String → Option TVal) (row : List String)
    (rest : List (List String)) (obj : Obj) :
    singleRows rv (row :: rest) obj =
      if row.isEmpty || (row.headD "" == "") || pyStartswith (row.headD "") "#" then
        singleRows rv rest obj
      else if ((row.drop 1).take (getIndexAfterLastNonempty (row.drop 1))).isEmpty then
        singleRows rv rest obj
      else
        match resolveVals rv ((row.drop 1).take (getIndexAfterLastNonempty (row.drop 1))) with
        | none => none
        | some tvals => singleRows rv rest (setEntry obj (row.headD "") (TVal.a tvals)) := rfl

theorem singleRows_append (rv : String → Option TVal) (xs ys : List (List String)) :
    ∀ obj : Obj, singleRows rv (xs ++ ys) obj =
      match singleRows rv xs obj with
      | none => none
      | some o => singleRows rv ys o := by
  induction xs with
  | nil => intro obj; rfl
  | cons row rest ih =>
    intro obj
    rw [List.cons_append, singleRows_cons, singleRows_cons]
    by_cases h1 : (row.isEmpty || (row.headD "" == "") || pyStartswith (row.headD "") "#") = true
    · rw [if_pos h1, if_pos h1, ih]
    · rw [if_neg h1, if_neg h1]
      by_cases h2 : ((row.drop 1).take (getIndexAfterLastNonempty (row.drop 1))).isEmpty = true
      · rw [if_pos h2, if_pos h2, ih]
      · rw [if_neg h2, if_neg h2]
        cases hr : resolveVals rv ((row.drop 1).take (getIndexAfterLastNonempty (row.drop 1))) with
        | none => rfl
        | some tvals => exact ih _

/-! ## Concrete loader environments used by individual claims -/

/-- Cell resolution that keeps every cell as its literal string (what
`_resolve_value` does for plain values). -/
def literalValueResolver : String → String → Bool → Bool → List String → Option TVal :=
  fun v _ _ _ _ => some (TVal.s v)

/-- A sheet `m.tsv` with header `name`/`size` and a data row carrying one cell
more than there are field names (spec §8.4). -/
def env3 : TabbyEnv :=
  { fs := fun p => if p = "m.tsv" then
      some [["name", "size"], ["f1", "10"], ["f2", "20", "extra"]] else none,
    getContext := fun _ => none,
    buildOverrides := fun _ _ => [] }

/-- A file system on which every sheet imports the sheet `a` of its own
directory via `@tabby-single-a`: every import chain is cyclic. -/
def cycEnv : TabbyEnv :=
  { fs := fun _ => some [["k", "@tabby-single-a"]],
    getContext := fun _ => none,
    buildOverrides := fun _ _ => [] }

/-- A many-mode sheet whose first row has an empty first cell (and a non-empty
second cell). -/
def env8a : TabbyEnv :=
  { fs := fun p => if p = "m.tsv" then some [["", "x"], ["a", "b"]] else none,
    getContext := fun _ => none,
    buildOverrides := fun _ _ => [] }

/-- A many-mode sheet whose first row consists entirely of empty cells. -/
def env8b : TabbyEnv :=
  { fs := fun p => if p = "m.tsv" then some [["", ""], ["a", "b"]] else none,
    getContext := fun _ => none,
    buildOverrides := fun _ _ => [] }

theorem cycEnv_single_diverges : ∀ (fuel : Nat) (src : String) (trace : List String),
    load_tabby_single_rv cycEnv (resolve_value cycEnv fuel) src true true trace = none := by
  intro fuel
  induction fuel with
  | zero => intro src trace; rfl
  | succ g ih =>
    intro src trace
    have h : resolve_value cycEnv (g + 1) "@tabby-single-a" src true true trace = none := by
      show (load_tabby_single_rv cycEnv (resolve_value cycEnv g)
        (getCorrespondingSheetFpath src (pySlice "@tabby-single-a" 14)) true true
        (buildImportTrace (getCorrespondingSheetFpath src (pySlice "@tabby-single-a" 14))
          trace)).map TVal.o = none
      rw [ih]
      rfl
    simp +decide [load_tabby_single_rv, singleRows, resolveVals, h,
      show cycEnv.fs = fun _ => some [["k", "@tabby-single-a"]] from rfl]

/-! ## Claims about the tabby record loader -/

/-- C3: In many-object mode, a data row with more cells than there are field
names has the excess cells merged into the value of the last named field as a
multi-value list trimmed of trailing empty cells.  Stated generally over
`_manyrow2obj` (for a last field name not repeated earlier, a sheet without
sidecar overrides and a non-empty trimmed excess), and instantiated on the
spec's example: header `name`/`size` with row `f2`/`20`/`extra` makes `size`
the list `["20", "extra"]`. -/
theorem manyrow_excess_cells_merged_into_last_field :
    (∀ (env : TabbyEnv) (rv : String → String → Bool → Bool → List String → Option TVal)
        (src : String) (row : List String) (jsonld recursive : Bool) (trace : List String)
        (ks : List String) (k : String) (vals : List TVal),
      (∀ s o, env.buildOverrides s o = []) →
      resolveValsKeepEmpty (fun v => rv v src jsonld recursive trace) row = some vals →
      vals.length > (ks ++ [k]).length →
      k ∉ ks →
      ((vals.drop ks.length).take (getIndexAfterLastNonemptyT (vals.drop ks.length))).isEmpty = false →
      ∃ obj, manyrow2obj env rv src row jsonld (ks ++ [k]) recursive trace = some obj ∧
        alGet k obj = some (TVal.a [TVal.a
          ((vals.drop ks.length).take (getIndexAfterLastNonemptyT (vals.drop ks.length)))])) ∧
    load_tabby_many env3 1 "m.tsv" false false =
      some [[("name", TVal.s "f1"), ("size", TVal.s "10")],
            [("name", TVal.s "f2"), ("size", TVal.a [TVal.s "20", TVal.s "extra"])]] := by
  constructor
  · intro env rv src row jsonld recursive trace ks k vals hov hres hlen hk hex
    set lc := (vals.drop ks.length).take (getIndexAfterLastNonemptyT (vals.drop ks.length)) with hlc
    have hidx : (ks ++ [k]).length - 1 = ks.length := by simp
    have hlt : ks.length < vals.length := by simp at hlen; omega
    have hget : (vals.set ks.length (TVal.a lc)).get? ks.length = some (TVal.a lc) :=
      List.get?_set_eq_of_lt _ hlt
    have hobj0 : alGet k (mergeFieldsAux (vals.set ks.length (TVal.a lc)) ks 0 []) = none := by
      rw [mergeFieldsAux_alGet_not_mem _ _ _ hk]; rfl
    refine ⟨mergeFieldsAux (vals.set ks.length (TVal.a lc)) (ks ++ [k]) 0 [], ?_, ?_⟩
    · show (match resolveValsKeepEmpty (fun v => rv v src jsonld recursive trace) row with
        | none => none
        | some vals0 =>
          let vals1 :=
            if vals0.length > (ks ++ [k]).length then
              let lastKeyIdx := (ks ++ [k]).length - 1
              let lcVals0 := vals0.drop lastKeyIdx
              let lcVals := lcVals0.take (getIndexAfterLastNonemptyT lcVals0)
              vals0.set lastKeyIdx (TVal.a lcVals)
            else vals0
          let obj := mergeFieldsAux vals1 (ks ++ [k]) 0 []
          some (dictUpdate obj (env.buildOverrides src obj))) = _
      rw [hres]
      simp only [hidx, if_pos hlen, mergeFieldsAux_append]
      rw [hov]
      rfl
    · rw [mergeFieldsAux_append]
      show alGet k (match (vals.set ks.length (TVal.a lc)).get? (0 + ks.length) with
        | none => mergeFieldsAux (vals.set ks.length (TVal.a lc)) [] (0 + ks.length + 1)
            (mergeFieldsAux (vals.set ks.length (TVal.a lc)) ks 0 [])
        | some v =>
          if v.isFalsy then mergeFieldsAux (vals.set ks.length (TVal.a lc)) [] (0 + ks.length + 1)
            (mergeFieldsAux (vals.set ks.length (TVal.a lc)) ks 0 [])
          else
            let kvals :=
              match alGet k (mergeFieldsAux (vals.set ks.length (TVal.a lc)) ks 0 []) with
              | some (TVal.a l) => l
              | some x => [x]
              | none => []
            mergeFieldsAux (vals.set ks.length (TVal.a lc)) [] (0 + ks.length + 1)
              (setEntry (mergeFieldsAux (vals.set ks.length (TVal.a lc)) ks 0 []) k
                (TVal.a (kvals ++ [v])))) = _
      rw [Nat.zero_add, hget, hobj0]
      have hfal : (TVal.a lc).isFalsy = false := by
        show lc.isEmpty = false
        exact hex
      simp only [hfal, if_false]
      show alGet k (setEntry (mergeFieldsAux (vals.set ks.length (TVal.a lc)) ks 0 []) k
        (TVal.a ([] ++ [TVal.a lc]))) = _
      rw [List.nil_append, alGet_setEntry_self]
  · rfl

/-- Witness for C3: the general statement applied to the spec's example —
header `name`/`size`, row `f2`/`20`/`extra`, literal cell resolution, no
overrides. -/
theorem manyrow_excess_cells_merged_into_last_field_witness :
    ∃ obj, manyrow2obj env3 literalValueResolver "m.tsv" ["f2", "20", "extra"] false
        (["name"] ++ ["size"]) false [] = some obj ∧
      alGet "size" obj = some (TVal.a [TVal.a [TVal.s "20", TVal.s "extra"]]) :=
  manyrow_excess_cells_merged_into_last_field.1 env3 literalValueResolver "m.tsv"
    ["f2", "20", "extra"] false false [] ["name"] "size"
    [TVal.s "f2", TVal.s "20", TVal.s "extra"]
    (fun _ _ => rfl) rfl (by decide) (by decide) rfl

/-- C4: `_resolve_value` sends a cell beginning with `@tabby-single-` to a
recursive single-mode load of the named sibling sheet, a cell beginning with
`@tabby-many-` to a recursive many-mode load, returns any value matching
neither marker (in particular any other `@tabby-` value) unchanged, and keeps
every value as its literal string when the recursion flag is disabled. -/
theorem resolve_value_import_markers :
    (∀ (env : TabbyEnv) (fuel : Nat) (name src : String) (jsonld : Bool) (trace : List String),
      resolve_value env (fuel + 1) ("@tabby-single-" ++ name) src jsonld true trace =
        (load_tabby_single_rv env (resolve_value env fuel) (getCorrespondingSheetFpath src name)
          jsonld true (buildImportTrace (getCorrespondingSheetFpath src name) trace)).map
            TVal.o) ∧
    (∀ (env : TabbyEnv) (fuel : Nat) (name src : String) (jsonld : Bool) (trace : List String),
      resolve_value env (fuel + 1) ("@tabby-many-" ++ name) src jsonld true trace =
        (load_tabby_many_rv env (resolve_value env fuel) (getCorrespondingSheetFpath src name)
          jsonld true (buildImportTrace (getCorrespondingSheetFpath src name) trace)).map
            (fun objs => TVal.a (objs.map TVal.o))) ∧
    (∀ (env : TabbyEnv) (fuel : Nat) (v src : String) (jsonld : Bool) (trace : List String),
      pyStartswith v "@tabby-single-" = false →
      pyStartswith v "@tabby-many-" = false →
      resolve_value env fuel v src jsonld true trace = some (TVal.s v)) ∧
    (∀ (env : TabbyEnv) (fuel : Nat) (v src : String) (jsonld : Bool) (trace : List String),
      resolve_value env fuel v src jsonld false trace = some (TVal.s v)) := by
  refine ⟨fun env fuel name src jsonld trace => rfl,
          fun env fuel name src jsonld trace => rfl, ?_, ?_⟩
  · intro env fuel v src jsonld trace h1 h2
    cases fuel <;> simp [resolve_value, resolve_value_with, h1, h2]
  · intro env fuel v src jsonld trace
    cases fuel <;> rfl

/-- Witness for C4: a `@tabby-` value matching neither marker is kept, and with
recursion disabled an import marker is kept as a literal. -/
theorem resolve_value_import_markers_witness :
    resolve_value env3 5 "@tabby-oddity" "dir/s.tsv" true true [] =
        some (TVal.s "@tabby-oddity") ∧
      resolve_value env3 0 "@tabby-single-sub" "dir/s.tsv" true false [] =
        some (TVal.s "@tabby-single-sub") :=
  ⟨resolve_value_import_markers.2.2.1 env3 5 "@tabby-oddity" "dir/s.tsv" true []
      (by decide) (by decide),
    resolve_value_import_markers.2.2.2 env3 0 "@tabby-single-sub" "dir/s.tsv" true []⟩

/-- C5: the loader performs no cycle detection: on the cyclic file system
`cycEnv` (every sheet imports sheet `a` of its own directory, in particular
`a.tsv` imports itself) a recursive `load_tabby` yields no result at any
inclusion depth — the fuel-indexed semantics of a run that recurses
indefinitely. -/
theorem load_tabby_cyclic_import_diverges :
    ∀ fuel : Nat, load_tabby cycEnv fuel "a.tsv" true true true = none := by
  intro fuel
  show (load_tabby_single_rv cycEnv (resolve_value cycEnv fuel) "a.tsv" true true []).map
    Sum.inl = none
  rw [cycEnv_single_diverges]
  rfl

/-- C7: in single-object mode a later row reusing an already-seen key
overwrites the earlier value outright: whatever object `o` the earlier rows
produced, a final row with key `k` leaves `setEntry o k` of exactly its own
resolved values — never an accumulation. -/
theorem single_mode_key_overwrite :
    ∀ (rv : String → Option TVal) (pre : List (List String)) (k : String)
      (rawvals : List String) (obj0 o : Obj) (ts : List TVal),
      (k == "") = false →
      pyStartswith k "#" = false →
      ((rawvals.take (getIndexAfterLastNonempty rawvals)).isEmpty = false) →
      resolveVals rv (rawvals.take (getIndexAfterLastNonempty rawvals)) = some ts →
      singleRows rv pre obj0 = some o →
      singleRows rv (pre ++ [k :: rawvals]) obj0 = some (setEntry o k (TVal.a ts)) ∧
        alGet k (setEntry o k (TVal.a ts)) = some (TVal.a ts) := by
  intro rv pre k rawvals obj0 o ts hk1 hk2 hne hres hpre
  refine ⟨?_, alGet_setEntry_self _ _ _⟩
  rw [singleRows_append, hpre]
  show singleRows rv [k :: rawvals] o = _
  rw [singleRows_cons]
  have hd : (k :: rawvals).drop 1 = rawvals := rfl
  have hcond : ((k :: rawvals).isEmpty || ((k :: rawvals).headD "" == "") ||
      pyStartswith ((k :: rawvals).headD "") "#") = false := by
    simp only [List.isEmpty_cons, List.headD_cons, hk1, hk2, Bool.or_self, Bool.false_or]
  rw [if_neg (by rw [hcond]; exact Bool.false_ne_true), hd,
    if_neg (by rw [hne]; exact Bool.false_ne_true), hres]
  rfl

/-- Witness for C7: rows `k → v1` then `k → v2` leave `k → [v2]` — the second
row's value alone. -/
theorem single_mode_key_overwrite_witness :
    singleRows (fun v => some (TVal.s v)) ([["k", "v1"]] ++ [["k", "v2"]]) [] =
        some (setEntry [("k", TVal.a [TVal.s "v1"])] "k" (TVal.a [TVal.s "v2"])) ∧
      alGet "k" (setEntry [("k", TVal.a [TVal.s "v1"])] "k" (TVal.a [TVal.s "v2"])) =
        some (TVal.a [TVal.s "v2"]) :=
  single_mode_key_overwrite (fun v => some (TVal.s v)) [["k", "v1"]] "k" ["v2"] []
    [("k", TVal.a [TVal.s "v1"])] [TVal.s "v2"] (by decide) (by decide) rfl rfl rfl

/-- C8: contrary to the claim (and to the comment in the source), many-object
mode does *not* apply the single-mode skip rules: a row whose first cell is
empty is retained (here it becomes the header), and a row all of whose cells
are empty is also retained, because `_load_tabby_many` tests `v is None`
against cells that `csv.reader` always yields as strings.  On `env8a` the
claim would make `["a", "b"]` the header and the result `[]`; the code makes
`["", "x"]` the header.  On `env8b` the claim would again give `[]`; the code
keeps the all-empty row, trims it to an empty header and yields one empty
record. -/
theorem many_mode_empty_first_field_rows_kept :
    load_tabby_many env8a 1 "m.tsv" false false =
        some [[("", TVal.s "a"), ("x", TVal.s "b")]] ∧
      load_tabby_many env8b 1 "m.tsv" false false = some [[]] :=
  ⟨rfl, rfl⟩

/-! ## The domain model (`commands/model.py`) -/

/-- `FileInfo` (model.py): the per-file record; `annex_key`/`annex_locations`
default to `None` and are set only for annexed files. -/
structure FileInfo where
  path : String
  byte_size : Nat
  executable : Bool
  url : String
  annexed : Bool
  annex_key : Option String := none
  annex_locations : Option (List String) := none

/-- `SubdatasetInfo` (model.py). -/
structure SubdatasetInfo where
  dataset_id : String
  dataset_version : String
deriving DecidableEq

/-- `DatasetVersionInfo` (model.py): the `files` and `sub_datasets` dicts are
insertion-ordered association lists keyed by intra-dataset path and mount
path. -/
structure DatasetVersionInfo where
  dataset_version : String
  files : List (String × FileInfo)
  sub_datasets : List (String × SubdatasetInfo)

/-- `DatasetInfo` (model.py). -/
structure DatasetInfo where
  dataset_id : String
  dataset_versions : List (String × DatasetVersionInfo)

/-- `SerializationInfo` (model.py). -/
structure SerializationInfo where
  start_dataset_id : String
  start_dataset_version : String
  dataset_infos : List (String × DatasetInfo)

/-- The root-dataset linkage fields a traversal record may carry
(`root_dataset_id`, `root_dataset_version` and the `dataset_path` mount
path appear together on sub-dataset records of a recursive traversal). -/
structure RootLinkInfo where
  root_dataset_id : String
  root_dataset_version : String
  dataset_path : String

/-- A flat traversal record as consumed by the Serialize Command's folding
step (the dictionary yielded by `iter_dataset`): `root_link` is `some` exactly
when the `root_dataset_id` key is present; `key`/`locations` are meaningful
only when `annexed` is true. -/
structure DatasetElement where
  type : String
  dataset_id : String
  dataset_version : String
  root_link : Option RootLinkInfo
  intra_dataset_path : String
  bytesize : Nat
  executable : Bool
  path : String
  annexed : Bool
  key : String
  locations : List String

/-! ## The Serialize Command's folding step (`tabby-serialize.py`) -/

/-- `add_dataset_info` (tabby-serialize.py lines 42–48): create the
`DatasetInfo` for a dataset id on first reference. -/
def add_dataset_info (uuid_str : String) (status : List (String × DatasetInfo)) :
    List (String × DatasetInfo) :=
  match alGet uuid_str status with
  | some _ => status
  | none => status ++ [(uuid_str, ⟨uuid_str, []⟩)]

/-- The inner `add_dataset_version` of `add_dataset_version_info`
(tabby-serialize.py lines 53–57): ensure the `DatasetInfo` and its
`DatasetVersionInfo` exist; the version entry is created as
`DatasetVersionInfo(version_str, dict(), dict())` on first reference. -/
def add_dataset_version (id_str version_str : String)
    (status : List (String × DatasetInfo)) : List (String × DatasetInfo) :=
  modifyEntry (add_dataset_info id_str status) id_str (fun di =>
    if (alGet version_str di.dataset_versions).isSome then di
    else { di with dataset_versions :=
      di.dataset_versions ++ [(version_str, ⟨version_str, [], []⟩)] })

/-- Dereference a `(dataset id, version)` pair in the status dict. -/
def getVersionInfo (status : List (String × DatasetInfo)) (id_str version_str : String) :
    Option DatasetVersionInfo :=
  (alGet id_str status).bind (fun di => alGet version_str di.dataset_versions)

/-- Apply `f` to the `DatasetVersionInfo` stored at `(id_str, version_str)`
(how the embedding renders Python's in-place mutation of the version object
aliased inside the status dict). -/
def modifyVersion (status : List (String × DatasetInfo)) (id_str version_str : String)
    (f : DatasetVersionInfo → DatasetVersionInfo) : List (String × DatasetInfo) :=
  modifyEntry status id_str (fun di =>
    { di with dataset_versions := modifyEntry di.dataset_versions version_str f })

/-- `add_dataset_version_info` (tabby-serialize.py lines 51–72): ensure the
element's own dataset version exists; when the record carries root linkage,
also ensure the root's version and register in its `sub_datasets`, under the
record's `dataset_path`, a `SubdatasetInfo` built from the **root** dataset's
id and the element version's `dataset_version` field (the value read from the
version object just ensured, i.e. the stored version string). -/
def add_dataset_version_info (e : DatasetElement)
    (status : List (String × DatasetInfo)) : List (String × DatasetInfo) :=
  let status1 := add_dataset_version e.dataset_id e.dataset_version status
  let dvVersion := ((getVersionInfo status1 e.dataset_id e.dataset_version).map
    (fun d => d.dataset_version)).getD e.dataset_version
  match e.root_link with
  | none => status1
  | some rl =>
    let status2 := add_dataset_version rl.root_dataset_id rl.root_dataset_version status1
    modifyVersion status2 rl.root_dataset_id rl.root_dataset_version (fun rdvi =>
      { rdvi with
        sub_datasets :=
          setEntry rdvi.sub_datasets rl.dataset_path ⟨rl.root_dataset_id, dvVersion⟩ })

/-- `add_file_info` (tabby-serialize.py lines 75–90): register a `FileInfo`
under the record's intra-dataset path, first write wins; `annex_key` and
`annex_locations` are filled only for annexed records; the URL is the
`file://`-prefixed traversal path. -/
def add_file_info (e : DatasetElement) (dataset_version : DatasetVersionInfo) :
    DatasetVersionInfo :=
  if (alGet e.intra_dataset_path dataset_version.files).isSome then dataset_version
  else
    { dataset_version with files := dataset_version.files ++
      [(e.intra_dataset_path,
        { path := e.intra_dataset_path
          byte_size := e.bytesize
          executable := e.executable
          url := "file://" ++ e.path
          annexed := e.annexed
          annex_key := if e.annexed then some e.key else none
          annex_locations := if e.annexed then some e.locations else none })] }

/-- `process` (tabby-serialize.py lines 93–101): fold one traversal record
into the serialization; a record whose type is neither `file` nor `dataset`
raises `ValueError` naming the type. -/
def process (e : DatasetElement) (serialization : SerializationInfo) :
    Except String SerializationInfo :=
  let infos := add_dataset_version_info e serialization.dataset_infos
  if e.type = "file" then
    .ok { serialization with
      dataset_infos :=
        modifyVersion infos e.dataset_id e.dataset_version (add_file_info e) }
  else if e.type = "dataset" then
    .ok { serialization with dataset_infos := infos }
  else
    .error ("unknown element type: ``" ++ e.type ++ "´´")

/-! ## The Serialize Command's table output (`tabby-serialize.py`) -/

/-- The header line of `file.tsv` (tabby-serialize.py line 107, without the
trailing newline). -/
def fileTableHeader : String :=
  "path[POSIX]\tsize[bytes]\tchecksum[md5]\turl\tannex_key\tlocations"

/-- The cells of one `file.tsv` data row as written by `output_file_table`
(tabby-serialize.py lines 108–114): path, size, the always-empty checksum and
url; for annexed files additionally the annex key and one trailing cell per
location. -/
def fileRowCells (f : FileInfo) : List String :=
  [f.path, toString f.byte_size, "", f.url] ++
    (if f.annexed then f.annex_key.getD "" :: (f.annex_locations.getD []) else [])

/-- One `file.tsv` data row: its cells joined by tabs (the row text written by
the f-strings of `output_file_table`). -/
def fileRow (f : FileInfo) : String :=
  String.intercalate "\t" (fileRowCells f)

/-- The lines of `file.tsv`: the fixed header followed by one row per file in
dict order. -/
def fileTableLines (files : List FileInfo) : List String :=
  fileTableHeader :: files.map fileRow

/-- `output_file_table` (tabby-serialize.py lines 104–114): the file content,
each line terminated by a newline. -/
def output_file_table (files : List FileInfo) : String :=
  String.join ((fileTableLines files).map (fun l => l ++ "\n"))

/-- The table files `output_dataset_version` creates in a version directory
(tabby-serialize.py lines 117–131): always `file.tsv`; `subdatasets.tsv` only
when at least one sub-dataset link exists. -/
def output_dataset_version_tables (dvi : DatasetVersionInfo) : List String :=
  ["file.tsv"] ++ (if dvi.sub_datasets.isEmpty then [] else ["subdatasets.tsv"])

/-! ## The Deserialize Command (`tabby-deserialize.py`) -/

/-- The tables `de_serialize` asserts to exist in the dataset-version
directory (tabby-deserialize.py lines 160–164). -/
def de_serialize_required_tables : List String := ["files.tsv", "subdatasets.tsv"]

/-- The required-table check of `de_serialize`: both asserted names must be
among the files present in the version directory. -/
def de_serialize_tables_check (written : List String) : Bool :=
  de_serialize_required_tables.all (fun t => written.contains t)

/-- The file-copy loop of `de_serialize` (tabby-deserialize.py lines 171–177)
on the data rows of the file table (the header row is already consumed by
`read_tsv`): each row is destructured as exactly `name, size, _, url`;
`url[7:]` strips the `file://` scheme and the source is copied to
`output_dir/name`.  Result: the `(copy source, destination name)` pairs
performed in order, and `false` when a row fails to unpack (the `ValueError`
aborts the loop, so no later copies are performed). -/
def de_serialize_copy_rows : List (List String) → List (String × String) × Bool
  | [] => ([], true)
  | line :: rest =>
    match line with
    | [name, _size, _checksum, url] =>
      let r := de_serialize_copy_rows rest
      ((pySlice url 7, name) :: r.1, r.2)
    | _ => ([], false)

/-! ## Status-dict lemmas for the folding step -/

theorem alGet_append_some {β : Type} (m m2 : List (String × β)) (k : String) (v : β)
    (h : alGet k m = some v) : alGet k (m ++ m2) = some v := by
  induction m with
  | nil => simp [alGet] at h
  | cons kv rest ih =>
    obtain ⟨k1, v1⟩ := kv
    by_cases h1 : k1 = k
    · simp [alGet, h1] at h ⊢
      exact h
    · simp [alGet, h1] at h ⊢
      exact ih h

theorem alGet_append_none {β : Type} (m m2 : List (String × β)) (k : String)
    (h : alGet k m = none) : alGet k (m ++ m2) = alGet k m2 := by
  induction m with
  | nil => rfl
  | cons kv rest ih =>
    obtain ⟨k1, v1⟩ := kv
    by_cases h1 : k1 = k
    · simp [alGet, h1] at h
    · simp [alGet, h1] at h ⊢
      exact ih h

theorem alGet_modifyEntry_self {β : Type} (m : List (String × β)) (k : String) (f : β → β) :
    alGet k (modifyEntry m k f) = (alGet k m).map f := by
  induction m with
  | nil => rfl
  | cons kv rest ih =>
    obtain ⟨k1, v1⟩ := kv
    have hm : modifyEntry ((k1, v1) :: rest) k f =
        (if k1 = k then (k1, f v1) else (k1, v1)) :: modifyEntry rest k f := by
      simp [modifyEntry]
    by_cases h1 : k1 = k
    · rw [hm, if_pos h1]
      simp [alGet, h1]
    · rw [hm, if_neg h1]
      simp [alGet, h1, ih]

/-- The well-formedness invariant of the status dict maintained by the folding
step: the version object stored under key `v` carries `v` as its
`dataset_version` field. -/
def versionsWF (status : List (String × DatasetInfo)) : Prop :=
  ∀ id_str di, alGet id_str status = some di →
    ∀ v dvi, alGet v di.dataset_versions = some dvi → dvi.dataset_version = v

theorem add_dataset_info_getD (uuid_str : String) (status : List (String × DatasetInfo)) :
    ∃ di, alGet uuid_str (add_dataset_info uuid_str status) = some di ∧
      (alGet uuid_str status = some di ∨
        (alGet uuid_str status = none ∧ di = ⟨uuid_str, []⟩)) := by
  cases h : alGet uuid_str status with
  | some di =>
    refine ⟨di, ?_, Or.inl rfl⟩
    unfold add_dataset_info
    rw [h]
    exact h
  | none =>
    refine ⟨⟨uuid_str, []⟩, ?_, Or.inr ⟨rfl, rfl⟩⟩
    unfold add_dataset_info
    rw [h]
    show alGet uuid_str (status ++ [(uuid_str, ⟨uuid_str, []⟩)]) = _
    rw [alGet_append_none _ _ _ h]
    simp [alGet]

theorem add_dataset_version_getVersionInfo (id_str version_str : String)
    (status : List (String × DatasetInfo)) :
    ∃ dvi, getVersionInfo (add_dataset_version id_str version_str status) id_str version_str =
        some dvi ∧
      (versionsWF status → dvi.dataset_version = version_str) := by
  obtain ⟨di, hget, hsrc⟩ := add_dataset_info_getD id_str status
  have hmod : alGet id_str (add_dataset_version id_str version_str status) =
      some (if (alGet version_str di.dataset_versions).isSome then di
        else { di with dataset_versions :=
          di.dataset_versions ++ [(version_str, ⟨version_str, [], []⟩)] }) := by
    unfold add_dataset_version
    rw [alGet_modifyEntry_self, hget]
    rfl
  cases hv : alGet version_str di.dataset_versions with
  | some dvi =>
    refine ⟨dvi, ?_, ?_⟩
    · unfold getVersionInfo
      rw [hmod]
      show alGet version_str (if (alGet version_str di.dataset_versions).isSome then di
        else { di with dataset_versions :=
          di.dataset_versions ++ [(version_str, ⟨version_str, [], []⟩)] }).dataset_versions = _
      rw [hv]
      simpa using hv
    · intro hwf
      rcases hsrc with h | ⟨h, hdi⟩
      · exact hwf id_str di h version_str dvi hv
      · subst hdi
        simp [alGet] at hv
  | none =>
    refine ⟨⟨version_str, [], []⟩, ?_, fun _ => rfl⟩
    unfold getVersionInfo
    rw [hmod]
    show alGet version_str (if (alGet version_str di.dataset_versions).isSome then di
      else { di with dataset_versions :=
        di.dataset_versions ++ [(version_str, ⟨version_str, [], []⟩)] }).dataset_versions = _
    rw [hv]
    show alGet version_str (di.dataset_versions ++ [(version_str, ⟨version_str, [], []⟩)]) = _
    rw [alGet_append_none _ _ _ hv]
    simp [alGet]

theorem getVersionInfo_modifyVersion (status : List (String × DatasetInfo))
    (id_str version_str : String) (f : DatasetVersionInfo → DatasetVersionInfo) :
    getVersionInfo (modifyVersion status id_str version_str f) id_str version_str =
      (getVersionInfo status id_str version_str).map f := by
  unfold getVersionInfo modifyVersion
  rw [alGet_modifyEntry_self]
  cases h : alGet id_str status with
  | none => rfl
  | some di => exact alGet_modifyEntry_self di.dataset_versions version_str f

/-! ## Claims about the serialize / deserialize commands -/

/-- C2: folding a traversal record that carries root-dataset linkage registers,
in the root version's `sub_datasets` map under the record's `dataset_path`,
a `SubdatasetInfo` whose `dataset_id` is the **root** (parent) dataset's id
and whose `dataset_version` is the record's own (sub-dataset's) version. -/
theorem subdataset_linkage (e : DatasetElement) (status : List (String × DatasetInfo))
    (rl : RootLinkInfo) (hroot : e.root_link = some rl) (hwf : versionsWF status) :
    ∃ rdvi, getVersionInfo (add_dataset_version_info e status)
        rl.root_dataset_id rl.root_dataset_version = some rdvi ∧
      alGet rl.dataset_path rdvi.sub_datasets =
        some ⟨rl.root_dataset_id, e.dataset_version⟩ := by
  obtain ⟨dvi1, h1, h1wf⟩ :=
    add_dataset_version_getVersionInfo e.dataset_id e.dataset_version status
  have hver : dvi1.dataset_version = e.dataset_version := h1wf hwf
  obtain ⟨rdvi0, h2, _⟩ := add_dataset_version_getVersionInfo
    rl.root_dataset_id rl.root_dataset_version
    (add_dataset_version e.dataset_id e.dataset_version status)
  refine ⟨{ rdvi0 with
    sub_datasets := setEntry rdvi0.sub_datasets rl.dataset_path
      ⟨rl.root_dataset_id, e.dataset_version⟩ }, ?_, ?_⟩
  · simp only [add_dataset_version_info, hroot]
    rw [h1]
    show getVersionInfo (modifyVersion _ rl.root_dataset_id rl.root_dataset_version
      (fun rdvi => { rdvi with
        sub_datasets := setEntry rdvi.sub_datasets rl.dataset_path
          ⟨rl.root_dataset_id, (some dvi1.dataset_version).getD e.dataset_version⟩ }))
      rl.root_dataset_id rl.root_dataset_version = _
    rw [getVersionInfo_modifyVersion, h2, hver]
    rfl
  · show alGet rl.dataset_path (setEntry rdvi0.sub_datasets rl.dataset_path
      ⟨rl.root_dataset_id, e.dataset_version⟩) = _
    exact alGet_setEntry_self _ _ _

/-- A concrete sub-dataset traversal record: dataset `sid` at version `sv`,
mounted at `sub/ds` inside root dataset `rid` at version `rv`. -/
def exSubdatasetElement : DatasetElement :=
  { type := "dataset"
    dataset_id := "sid"
    dataset_version := "sv"
    root_link := some ⟨"rid", "rv", "sub/ds"⟩
    intra_dataset_path := ""
    bytesize := 0
    executable := false
    path := "/tmp/root/sub/ds"
    annexed := false
    key := ""
    locations := [] }

/-- Witness for C2: folding `exSubdatasetElement` into an empty status dict
links `sub/ds → ⟨rid, sv⟩` (note the parent's id `rid`, not `sid`) under the
root version `rv`. -/
theorem subdataset_linkage_witness :
    ∃ rdvi, getVersionInfo (add_dataset_version_info exSubdatasetElement [])
        "rid" "rv" = some rdvi ∧
      alGet "sub/ds" rdvi.sub_datasets = some ⟨"rid", "sv"⟩ :=
  subdataset_linkage exSubdatasetElement [] ⟨"rid", "rv", "sub/ds"⟩ rfl
    (fun id_str di h => by simp [alGet] at h)

/-- C9: the folding step raises a fatal error naming the unrecognized type for
every record whose type is neither `file` nor `dataset`; records typed `file`
or `dataset` never raise it. -/
theorem process_unknown_type_fatal :
    ∀ (e : DatasetElement) (s : SerializationInfo),
      (e.type ≠ "file" → e.type ≠ "dataset" →
        process e s = .error ("unknown element type: ``" ++ e.type ++ "´´")) ∧
      ((e.type = "file" ∨ e.type = "dataset") → ∃ s2, process e s = .ok s2) := by
  intro e s
  constructor
  · intro h1 h2
    unfold process
    rw [if_neg h1, if_neg h2]
  · intro h
    rcases h with h | h
    · exact ⟨_, by unfold process; rw [if_pos h]⟩
    · by_cases hf : e.type = "file"
      · exact ⟨_, by unfold process; rw [if_pos hf]⟩
      · exact ⟨_, by unfold process; rw [if_neg hf, if_pos h]⟩

/-- An empty serialization envelope for concrete runs of `process`. -/
def emptySerialization : SerializationInfo :=
  { start_dataset_id := "rid", start_dataset_version := "rv", dataset_infos := [] }

/-- Witness for C9: a record typed `symlink` is a fatal error naming
`symlink`; the record of `exSubdatasetElement` (typed `dataset`) succeeds. -/
theorem process_unknown_type_fatal_witness :
    process { exSubdatasetElement with type := "symlink" } emptySerialization =
        .error ("unknown element type: ``" ++ "symlink" ++ "´´") ∧
      ∃ s2, process exSubdatasetElement emptySerialization = .ok s2 :=
  ⟨(process_unknown_type_fatal { exSubdatasetElement with type := "symlink" }
      emptySerialization).1 (by decide) (by decide),
    (process_unknown_type_fatal exSubdatasetElement emptySerialization).2
      (Or.inr rfl)⟩

/-! ## C6: the shape of `file.tsv` rows -/

/-- Split a string at every tab character; the resulting chunks are the
tab-separated fields of the line. -/
def splitOnCharList (c : Char) : List Char → List (List Char)
  | [] => [[]]
  | x :: xs =>
    match splitOnCharList c xs with
    | [] => [[]]
    | g :: gs => if x = c then [] :: g :: gs else (x :: g) :: gs

/-- The tab-separated fields of a line of text. -/
def tabFields (s : String) : List String :=
  (splitOnCharList '\t' s.toList).map String.mk

/-- A non-annexed file of one byte. -/
def exPlainFile : FileInfo :=
  { path := "a.txt", byte_size := 1, executable := false,
    url := "file:///tmp/src/a.txt", annexed := false }

/-- An annexed file with one annex key and two known locations. -/
def exAnnexedFile : FileInfo :=
  { path := "b.dat", byte_size := 2, executable := false,
    url := "file:///tmp/src/b.dat", annexed := true,
    annex_key := some "MD5-K1", annex_locations := some ["loc1", "loc2"] }

/-- Counterexample to C6: the `file.tsv` row written for an annexed file with
one annex key and two known locations has 7 tab-separated fields (the 4 common
fields, the key, and one field per location), not 6 as claimed. -/
theorem file_row_annexed_not_six_fields :
    (tabFields (fileRow exAnnexedFile)).length = 7 ∧
      (tabFields (fileRow exAnnexedFile)).length ≠ 6 := by
  constructor <;> decide

/-- C6 as amended: the file table begins with the fixed header and has one
data row per file; the checksum cell (index 2) of every row is empty; a
non-annexed file's row has exactly 4 cells; an annexed file's row with one
annex key and two known locations has exactly 7 cells (4 common cells, the
key, and one cell per location).  `fileRow` is the tab-joined text of these
cells. -/
theorem file_table_row_shape :
    (∀ files : List FileInfo, (fileTableLines files).headD "" = fileTableHeader ∧
      (fileTableLines files).length = files.length + 1) ∧
    (∀ f : FileInfo, (fileRowCells f).get? 2 = some "") ∧
    (∀ f : FileInfo, f.annexed = false → (fileRowCells f).length = 4) ∧
    (∀ (f : FileInfo) (k l1 l2 : String), f.annexed = true → f.annex_key = some k →
      f.annex_locations = some [l1, l2] → (fileRowCells f).length = 7) := by
  refine ⟨fun files => ⟨rfl, by simp [fileTableLines]⟩, fun f => rfl, ?_, ?_⟩
  · intro f h
    simp [fileRowCells, h]
  · intro f k l1 l2 h hk hl
    simp [fileRowCells, h, hk, hl]

/-- Witness for C6 (amended): the concrete plain and annexed rows have 4 and 7
cells. -/
theorem file_table_row_shape_witness :
    (fileRowCells exPlainFile).length = 4 ∧ (fileRowCells exAnnexedFile).length = 7 :=
  ⟨file_table_row_shape.2.2.1 exPlainFile rfl,
    file_table_row_shape.2.2.2 exAnnexedFile "MD5-K1" "loc1" "loc2" rfl rfl rfl⟩

/-! ## C10 / C1: deserialization against serialized output -/

theorem list_length_eq_four {α : Type} (l : List α) (h : l.length = 4) :
    ∃ a b c d, l = [a, b, c, d] := by
  rcases l with _ | ⟨a, _ | ⟨b, _ | ⟨c, _ | ⟨d, _ | ⟨e, t⟩⟩⟩⟩⟩
  · simp at h
  · simp at h
  · simp at h
  · simp at h
  · exact ⟨a, b, c, d, rfl⟩
  · simp at h

theorem de_serialize_copy_rows_cons_bad (line : List String) (rest : List (List String))
    (h : line.length ≠ 4) : de_serialize_copy_rows (line :: rest) = ([], false) := by
  rcases line with _ | ⟨a, _ | ⟨b, _ | ⟨c, _ | ⟨d, _ | ⟨e, t⟩⟩⟩⟩⟩
  · rfl
  · rfl
  · rfl
  · rfl
  · exact absurd rfl h
  · rfl

theorem de_serialize_copy_rows_cons_good (a b c d : String) (rest : List (List String)) :
    de_serialize_copy_rows ([a, b, c, d] :: rest) =
      ((pySlice d 7, a) :: (de_serialize_copy_rows rest).1,
        (de_serialize_copy_rows rest).2) := rfl

/-- C10 (implicit): `de_serialize` destructures every data row of the file
table into exactly four cells; a row with any other cell count makes the run
fail with an unpacking error before that row's file is copied (only the
well-formed rows before it are copied), and every annexed-file row written by
the Serialize Command has more than 4 cells, so it trips this failure. -/
theorem de_serialize_row_arity :
    (∀ (pre : List (List String)) (line : List String) (post : List (List String)),
      (∀ r ∈ pre, r.length = 4) → line.length ≠ 4 →
      (de_serialize_copy_rows (pre ++ line :: post)).2 = false ∧
        (de_serialize_copy_rows (pre ++ line :: post)).1.length = pre.length) ∧
    (∀ f : FileInfo, f.annexed = true → (fileRowCells f).length ≠ 4) := by
  constructor
  · intro pre line post hpre hline
    induction pre with
    | nil =>
      rw [List.nil_append, de_serialize_copy_rows_cons_bad _ _ hline]
      exact ⟨rfl, rfl⟩
    | cons r pre ih =>
      obtain ⟨a, b, c, d, rfl⟩ :=
        list_length_eq_four r (hpre r (List.mem_cons_self r pre))
      rw [List.cons_append, de_serialize_copy_rows_cons_good]
      obtain ⟨ih1, ih2⟩ := ih (fun x hx => hpre x (List.mem_cons_of_mem _ hx))
      exact ⟨ih1, by simp [ih2]⟩
  · intro f h
    simp [fileRowCells, h]

/-- Witness for C10: a file table consisting of one good row followed by the
annexed row of `exAnnexedFile` (7 cells) copies the first file and then
aborts. -/
theorem de_serialize_row_arity_witness :
    (de_serialize_copy_rows ([["a.txt", "1", "", "file:///tmp/src/a.txt"]] ++
        fileRowCells exAnnexedFile :: [])).2 = false ∧
      (de_serialize_copy_rows ([["a.txt", "1", "", "file:///tmp/src/a.txt"]] ++
        fileRowCells exAnnexedFile :: [])).1.length = 1 := by
  have h := de_serialize_row_arity.1 [["a.txt", "1", "", "file:///tmp/src/a.txt"]]
    (fileRowCells exAnnexedFile) []
    (by intro r hr; simp at hr; rw [hr]; rfl)
    (de_serialize_row_arity.2 exAnnexedFile rfl)
  exact h

/-- C1 (the round trip): the Serialize Command writes a version directory
containing `file.tsv` (and `subdatasets.tsv` only when sub-dataset links
exist), while `de_serialize` asserts that `files.tsv` and `subdatasets.tsv`
exist there — so for every serialized dataset version, in particular one
holding a single small non-annexed file and no sub-datasets, the Deserialize
Command's required-table check fails on the Serialize Command's output and the
round trip aborts before copying anything. -/
theorem serialize_deserialize_table_name_mismatch :
    ∀ dvi : DatasetVersionInfo,
      de_serialize_tables_check (output_dataset_version_tables dvi) = false := by
  intro dvi
  obtain ⟨v, fs, sub⟩ := dvi
  cases sub <;> rfl
